import Mathlib

/-!
Shallow embedding of the one.projfs provider core (src/src/projfs_provider.cpp,
src/src/content_cache.h, the ContentCache implementation, and the JS host glue
in src/IFSProjFSProvider.js), together with proofs settling the frozen claims.

Modelling conventions:
* machine integers (size_t, UINT32, UINT64, INT32) are modelled as Nat — every
  quantity involved (sizes, offsets, counters, command ids) is nonnegative in
  the source and no overflow-relevant arithmetic occurs;
* std::unordered_map is modelled as a function map (for the cache) or as an
  association list (for the pending-request map, whose iteration order the
  completion loop observes);
* std::chrono timestamps are modelled as Nat instants passed explicitly where
  the source reads the clock;
* platform primitives (PrjWriteFileData, PrjAllocateAlignedBuffer,
  PrjFillDirEntryBuffer, PrjFileNameMatch, PrjDeleteFile, PrjCompleteCommand)
  are modelled at their interface: allocation and data writes succeed, the
  directory-entry buffer holds a given number of further entries before
  reporting insufficient-buffer, the name-match function is an abstract
  predicate, and PrjDeleteFile's outcome is an explicit parameter.
-/

namespace OneProjFS

/-- The HRESULT values the provider callbacks produce (projfs_provider.cpp). -/
inductive HResult where
  | S_OK
  | E_OUTOFMEMORY
  | ERROR_FILE_NOT_FOUND
  | ERROR_ACCESS_DENIED
  | ERROR_IO_PENDING
  deriving DecidableEq, Repr

/-- PRJ_NOTIFICATION kinds handled by NotificationCallback
(projfs_provider.cpp lines 989-1002); `UNKNOWN` stands for any value outside
the recognized enumeration (the switch default). -/
inductive Notification where
  | FILE_OPENED
  | NEW_FILE_CREATED
  | FILE_OVERWRITTEN
  | PRE_DELETE
  | PRE_RENAME
  | PRE_SET_HARDLINK
  | FILE_RENAMED
  | HARDLINK_CREATED
  | FILE_HANDLE_CLOSED_NO_MODIFICATION
  | FILE_HANDLE_CLOSED_FILE_MODIFIED
  | FILE_HANDLE_CLOSED_FILE_DELETED
  | FILE_PRE_CONVERT_TO_FULL
  | UNKNOWN (code : Nat)
  deriving DecidableEq, Repr

/-- struct FileInfo (content_cache.h lines 14-21). -/
structure FileInfo where
  name : String
  hash : String
  size : Nat
  isDirectory : Bool
  isBlobOrClob : Bool
  mode : Nat
  deriving DecidableEq, Repr

/-- struct DirectoryListing (content_cache.h lines 23-25). -/
structure DirectoryListing where
  entries : List FileInfo
  deriving DecidableEq, Repr

/-- struct FileContent (content_cache.h lines 27-30); bytes as Nat. -/
structure FileContent where
  data : List Nat
  hash : String
  deriving DecidableEq, Repr

/-- CacheEntry<T> (content_cache.h lines 62-71): payload plus insertion
timestamp. -/
structure CacheEntry (α : Type) where
  data : α
  timestamp : Nat
  deriving DecidableEq, Repr

/-- CacheEntry::IsValid (content_cache.h lines 67-70): age strictly below the
TTL. `now` is the current steady-clock instant. -/
def CacheEntry.IsValid (e : CacheEntry α) (now ttl : Nat) : Bool :=
  now - e.timestamp < ttl

/-- ContentCache (content_cache.h lines 32-87): three keyed stores plus the
TTL. Hit/miss statistics are not modelled. -/
@[ext]
structure ContentCache where
  fileInfoCache : String → Option (CacheEntry FileInfo)
  directoryCache : String → Option (CacheEntry DirectoryListing)
  contentCache : String → Option (CacheEntry FileContent)
  ttl : Nat

/-- Map update for the function-modelled unordered_map. -/
def mapInsert (m : String → Option α) (key : String) (v : α) :
    String → Option α :=
  fun q => if q = key then some v else m q

/-- Map erase for the function-modelled unordered_map. -/
def mapErase (m : String → Option α) (key : String) : String → Option α :=
  fun q => if q = key then none else m q

/-- ContentCache::SetFileInfo (ContentCache implementation lines 11-20);
the periodic CleanExpiredEntries sweep only removes already-expired entries
and is not modelled. -/
def SetFileInfo (c : ContentCache) (path : String) (info : FileInfo)
    (now : Nat) : ContentCache :=
  { c with fileInfoCache := mapInsert c.fileInfoCache path ⟨info, now⟩ }

/-- ContentCache::GetFileInfo (lines 22-33): present and within TTL, else
nothing. -/
def GetFileInfo (c : ContentCache) (path : String) (now : Nat) :
    Option FileInfo :=
  match c.fileInfoCache path with
  | some e => if e.IsValid now c.ttl then some e.data else none
  | none => none

/-- ContentCache::SetDirectoryListing (lines 35-47). -/
def SetDirectoryListing (c : ContentCache) (path : String)
    (listing : DirectoryListing) (now : Nat) : ContentCache :=
  { c with directoryCache := mapInsert c.directoryCache path ⟨listing, now⟩ }

/-- ContentCache::GetDirectoryListing (lines 49-74). -/
def GetDirectoryListing (c : ContentCache) (path : String) (now : Nat) :
    Option DirectoryListing :=
  match c.directoryCache path with
  | some e => if e.IsValid now c.ttl then some e.data else none
  | none => none

/-- ContentCache::SetFileContent (lines 76-88): bodies above the 1 MiB
threshold are silently dropped. -/
def SetFileContent (c : ContentCache) (path : String) (content : FileContent)
    (now : Nat) : ContentCache :=
  if content.data.length ≤ 1024 * 1024 then
    { c with contentCache := mapInsert c.contentCache path ⟨content, now⟩ }
  else c

/-- ContentCache::GetFileContent (lines 90-101). -/
def GetFileContent (c : ContentCache) (path : String) (now : Nat) :
    Option FileContent :=
  match c.contentCache path with
  | some e => if e.IsValid now c.ttl then some e.data else none
  | none => none

/-- Index of the last '/' in a character list, as std::string::rfind('/')
computes it (ContentCache::InvalidatePath line 111). -/
def lastSlashIdx : List Char → Option Nat
  | [] => none
  | c :: rest =>
    match lastSlashIdx rest with
    | some i => some (i + 1)
    | none => if c = '/' then some 0 else none

/-- `path.substr(0, path.rfind('/'))` when a slash exists (InvalidatePath
lines 111-114): the would-be parent key, cut at the last slash. For a
single-segment path such as "/foo" this is the empty string. -/
def parentKey (path : String) : Option String :=
  (lastSlashIdx path.toList).map (fun i => String.mk (path.toList.take i))

/-- ContentCache::InvalidatePath (lines 103-116): erase the path from all
three maps, then erase the directory entry under the rfind-derived parent
key when the path contains a slash. -/
def InvalidatePath (c : ContentCache) (path : String) : ContentCache :=
  let c1 : ContentCache :=
    { c with
      fileInfoCache := mapErase c.fileInfoCache path
      directoryCache := mapErase c.directoryCache path
      contentCache := mapErase c.contentCache path }
  match parentKey path with
  | some parent => { c1 with directoryCache := mapErase c1.directoryCache parent }
  | none => c1

/-- NotificationCallback decision table (projfs_provider.cpp lines 1009-1038):
informational events allowed, write-class events denied, post-operation
events allowed, unknown kinds denied. -/
def NotificationCallbackResult (n : Notification) : HResult :=
  match n with
  | .FILE_OPENED => .S_OK
  | .FILE_HANDLE_CLOSED_NO_MODIFICATION => .S_OK
  | .FILE_PRE_CONVERT_TO_FULL => .S_OK
  | .NEW_FILE_CREATED => .ERROR_ACCESS_DENIED
  | .FILE_OVERWRITTEN => .ERROR_ACCESS_DENIED
  | .PRE_DELETE => .ERROR_ACCESS_DENIED
  | .PRE_RENAME => .ERROR_ACCESS_DENIED
  | .PRE_SET_HARDLINK => .ERROR_ACCESS_DENIED
  | .FILE_RENAMED => .S_OK
  | .HARDLINK_CREATED => .S_OK
  | .FILE_HANDLE_CLOSED_FILE_MODIFIED => .S_OK
  | .FILE_HANDLE_CLOSED_FILE_DELETED => .S_OK
  | .UNKNOWN _ => .ERROR_ACCESS_DENIED

/-- NotificationCallback as a step on the cache state (lines 975-1039): the
callback body only logs and computes an HResult; for no notification kind
does it touch the ContentCache (the close-deleted branch at lines 1025-1031
merely logs and returns S_OK), so the cache passes through unchanged. -/
def NotificationCallbackStep (n : Notification) (path : String)
    (c : ContentCache) : HResult × ContentCache :=
  (NotificationCallbackResult n, c)

/-- Outcome of the PrjDeleteFile platform call inside InvalidateTombstone
(lines 1129-1134), which the model takes as a parameter. -/
inductive PrjDeleteOutcome where
  | succeeded
  | fileNotFound
  | failed
  deriving DecidableEq, Repr

/-- ProjFSProvider::InvalidateTombstone (lines 1107-1154): fails when the
provider is not running; on platform success it also invalidates the local
cache for the path; a missing tombstone counts as success without cache
invalidation; other platform failures report false. -/
def InvalidateTombstone (isRunning : Bool) (outcome : PrjDeleteOutcome)
    (c : ContentCache) (virtualPath : String) : Bool × ContentCache :=
  if isRunning then
    match outcome with
    | .succeeded => (true, InvalidatePath c virtualPath)
    | .fileNotFound => (true, c)
    | .failed => (false, c)
  else (false, c)

/-- struct PendingFileRequest (projfs_provider.h lines 148-154); the opaque
virtualization context and data-stream GUID are carried as Nat tokens. -/
structure PendingFileRequest where
  virtualPath : String
  byteOffset : Nat
  length : Nat
  virtualizationContext : Nat
  dataStreamId : Nat
  deriving DecidableEq, Repr

/-- The clipped-window serve shared by the cached, object-store and deferred
paths (projfs_provider.cpp lines 308-341, 352-380, 452-490): at-or-past-end
offsets complete with success and no bytes; otherwise min(length, size-offset)
bytes starting at the offset are handed to PrjWriteFileData, whose write (and
the aligned-buffer allocation before it) is modelled as succeeding. -/
def serveContent (data : List Nat) (byteOffset length : Nat) :
    HResult × List Nat :=
  if data.length ≤ byteOffset then (.S_OK, [])
  else
    (.S_OK, (data.drop byteOffset).take (min length (data.length - byteOffset)))

/-- The check `virtualPath.compare(0, 9, "/objects/") == 0` (line 349):
does the path start with the nine characters "/objects/". -/
def isObjectsPath (p : String) : Bool :=
  p.toList.take 9 = "/objects/".toList

/-- unordered_map assignment `pendingFileRequests_[commandId] = request`
(line 401): insert-or-overwrite keyed by command id. -/
def insertPending (pending : List (Nat × PendingFileRequest)) (cid : Nat)
    (r : PendingFileRequest) : List (Nat × PendingFileRequest) :=
  (cid, r) :: pending.filter (fun e => e.1 ≠ cid)

/-- Result of one GetFileData invocation: the HRESULT returned to the kernel,
the bytes handed to PrjWriteFileData (empty when none were), and the
pending-request map afterwards. -/
structure GetFileDataResult where
  hr : HResult
  written : List Nat
  pending : List (Nat × PendingFileRequest)
  deriving DecidableEq, Repr

/-- ProjFSProvider::GetFileDataCallback (lines 282-417). Order of business:
(1) with an async bridge present, a cached body that is non-empty is served
synchronously; (2) otherwise a path under "/objects/" is served from the
object store when present; (3) otherwise, with an async bridge, the request
is recorded in the pending map under its command id and ERROR_IO_PENDING is
returned (the async fetch side effect is outside the model); without a
bridge the call fails with ERROR_FILE_NOT_FOUND. `storage` models
SyncStorage::ReadVirtualPath. -/
def GetFileDataCallback (hasAsyncBridge : Bool) (cache : ContentCache)
    (now : Nat) (storage : String → Option (List Nat))
    (pending : List (Nat × PendingFileRequest)) (commandId : Nat)
    (virtualPath : String) (byteOffset length : Nat)
    (virtualizationContext dataStreamId : Nat) : GetFileDataResult :=
  let cachedServe : Option (HResult × List Nat) :=
    if hasAsyncBridge then
      match GetFileContent cache virtualPath now with
      | some content =>
        if content.data = [] then none
        else some (serveContent content.data byteOffset length)
      | none => none
    else none
  match cachedServe with
  | some hw => { hr := hw.1, written := hw.2, pending := pending }
  | none =>
    let objectServe : Option (HResult × List Nat) :=
      if isObjectsPath virtualPath then
        match storage virtualPath with
        | some data => some (serveContent data byteOffset length)
        | none => none
      else none
    match objectServe with
    | some hw => { hr := hw.1, written := hw.2, pending := pending }
    | none =>
      if hasAsyncBridge then
        { hr := .ERROR_IO_PENDING
          written := []
          pending := insertPending pending commandId
            ⟨virtualPath, byteOffset, length, virtualizationContext,
              dataStreamId⟩ }
      else { hr := .ERROR_FILE_NOT_FOUND, written := [], pending := pending }

/-- Path normalization in CompletePendingFileRequests (lines 423-427,
433-438): backslashes become slashes and a leading slash is ensured on
non-empty paths. -/
def normalizeComparePath (p : String) : String :=
  let q := p.toList.map (fun ch => if ch = '\\' then '/' else ch)
  match q with
  | [] => ""
  | c :: _ => if c = '/' then String.mk q else String.mk ('/' :: q)

/-- One completion delivered through PrjCompleteCommand. -/
structure CompletionEvent where
  commandId : Nat
  hr : HResult
  written : List Nat
  deriving DecidableEq, Repr

/-- The body of the completion loop for a single matching pending request
(lines 446-513): with no cache the command completes file-not-found; with a
cached non-empty body, an in-range offset writes the clipped window and
completes with the write result (modelled as succeeding) while an
at-or-past-end offset completes with success and no data; an absent or
empty body completes file-not-found. -/
def completeOne (hasCache : Bool) (cache : ContentCache) (now : Nat)
    (virtualPath : String) (cid : Nat) (r : PendingFileRequest) :
    CompletionEvent :=
  if hasCache then
    match GetFileContent cache virtualPath now with
    | some content =>
      if content.data = [] then
        { commandId := cid, hr := .ERROR_FILE_NOT_FOUND, written := [] }
      else if r.byteOffset < content.data.length then
        { commandId := cid
          hr := .S_OK
          written := (content.data.drop r.byteOffset).take
            (min r.length (content.data.length - r.byteOffset)) }
      else { commandId := cid, hr := .S_OK, written := [] }
    | none => { commandId := cid, hr := .ERROR_FILE_NOT_FOUND, written := [] }
  else { commandId := cid, hr := .ERROR_FILE_NOT_FOUND, written := [] }

/-- ProjFSProvider::CompletePendingFileRequests (lines 419-525): walk the
pending map in iteration order, complete every request whose normalized
stored path equals the normalized incoming path, collect those command ids,
and finally erase exactly the collected ids from the map. Returns the
completion events in loop order together with the map afterwards. -/
def CompletePendingFileRequests (hasCache : Bool) (cache : ContentCache)
    (now : Nat) (pending : List (Nat × PendingFileRequest))
    (virtualPath : String) :
    List CompletionEvent × List (Nat × PendingFileRequest) :=
  let vnorm := normalizeComparePath virtualPath
  let completed := pending.filter
    (fun e => normalizeComparePath e.2.virtualPath = vnorm)
  let events := completed.map
    (fun e => completeOne hasCache cache now virtualPath e.1 e.2)
  let completedIds := completed.map Prod.fst
  (events, pending.filter (fun e => e.1 ∉ completedIds))

/-- struct EnumerationState (projfs_provider.h lines 34-41). -/
structure EnumerationState where
  entries : List FileInfo
  nextIndex : Nat
  isLoading : Bool
  isComplete : Bool
  callCount : Nat
  deriving DecidableEq, Repr

/-- EnumerationState::MAX_CALLS_PER_ENUM (projfs_provider.h line 40). -/
def MAX_CALLS_PER_ENUM : Nat := 100

/-- ProjFSProvider::StartDirectoryEnumerationCallback (lines 532-578): it
installs a value-initialized EnumerationState for the session. -/
def StartDirectoryEnumerationState : EnumerationState :=
  { entries := [], nextIndex := 0, isLoading := false, isComplete := false
    callCount := 0 }

/-- The paging loop of GetDirectoryEnumerationCallback (lines 839-925) on the
suffix of captured entries starting at the cursor. `matchP` is
PrjFileNameMatch against the kernel-supplied search expression; `cap` is the
number of further entries the kernel buffer accepts before
PrjFillDirEntryBuffer reports insufficient-buffer (other fill failures do
not occur in the model). Empty names and non-matching names are skipped with
the cursor advancing; a successful fill advances the cursor and emits; a
full buffer stops without advancing. Returns the final cursor and the
emitted entries in order. -/
def fillLoop (matchP : String → Bool) :
    List FileInfo → Nat → Nat → Nat × List FileInfo
  | [], idx, _ => (idx, [])
  | e :: rest, idx, cap =>
    if e.name = "" then fillLoop matchP rest (idx + 1) cap
    else if ¬ matchP e.name then fillLoop matchP rest (idx + 1) cap
    else if cap = 0 then (idx, [])
    else
      let r := fillLoop matchP rest (idx + 1) (cap - 1)
      (r.1, e :: r.2)

/-- Result of one GetDirectoryEnumeration invocation: HRESULT, the entries
filled into the kernel buffer, and the session state afterwards. -/
structure EnumCallResult where
  hr : HResult
  emitted : List FileInfo
  state : EnumerationState
  deriving DecidableEq, Repr

/-- The capture block of GetDirectoryEnumerationCallback (lines 684-803): a
session with no captured entries that is not yet complete installs the
listing the cache/object-store/async-poll sequence yields (`fetchResult`,
none modelling the 5-second timeout) and becomes complete; any other
session is left as is. -/
def enumCapture (fetchResult : Option (List FileInfo))
    (s : EnumerationState) : EnumerationState :=
  if s.entries = [] ∧ s.isComplete = false then
    match fetchResult with
    | some l =>
      { s with entries := l, isLoading := false, isComplete := true }
    | none => { s with isLoading := false, isComplete := true }
  else s

/-- The serving tail of GetDirectoryEnumerationCallback (lines 805-938): a
cursor at or past the end marks the session complete and returns success
with nothing; otherwise the paging loop runs from the cursor. -/
def enumServe (matchP : String → Bool) (cap : Nat) (s : EnumerationState) :
    EnumCallResult :=
  if s.entries.length ≤ s.nextIndex then
    { hr := .S_OK, emitted := [], state := { s with isComplete := true } }
  else
    let r := fillLoop matchP (s.entries.drop s.nextIndex) s.nextIndex cap
    { hr := .S_OK, emitted := r.2, state := { s with nextIndex := r.1 } }

/-- ProjFSProvider::GetDirectoryEnumerationCallback (lines 580-939) for one
session, single-threaded (the isLoading wait path is not exercised). Steps,
in source order: the restart-scan flag clears cursor, call counter, entries
and flags (lines 641-653); the call counter is incremented and, above
MAX_CALLS_PER_ENUM, the call returns success with nothing (lines 655-665);
then the capture block and the serving tail run. -/
def GetDirectoryEnumerationCallback (matchP : String → Bool)
    (fetchResult : Option (List FileInfo)) (restartScan : Bool) (cap : Nat)
    (s : EnumerationState) : EnumCallResult :=
  let s0 : EnumerationState :=
    if restartScan then
      { entries := [], nextIndex := 0, isLoading := false, isComplete := false
        callCount := 0 }
    else s
  let s1 : EnumerationState := { s0 with callCount := s0.callCount + 1 }
  if MAX_CALLS_PER_ENUM < s1.callCount then
    { hr := .S_OK, emitted := [], state := s1 }
  else
    enumServe matchP cap (enumCapture fetchResult s1)

/-- A sequence of GetDirectoryEnumeration calls on one session without an
intervening restart-scan; each input supplies that call's fetch result and
remaining buffer capacity. Returns the final state and the per-call emitted
entry lists in order. -/
def runEnum (matchP : String → Bool)
    (inputs : List (Option (List FileInfo) × Nat)) (s : EnumerationState) :
    EnumerationState × List (List FileInfo) :=
  match inputs with
  | [] => (s, [])
  | (fetch, cap) :: rest =>
    let r := GetDirectoryEnumerationCallback matchP fetch false cap s
    let t := runEnum matchP rest r.state
    (t.1, r.emitted :: t.2)

/-- Loop invariant for a restart-free run of GetDirectoryEnumeration calls:
a fresh-but-incomplete session has cursor 0, captured entry names are
non-empty (the spec's sanitized-listing premise), and the entries emitted so
far are exactly the pattern-filtered prefix of the captured list up to the
cursor. -/
def EnumInv (matchP : String → Bool) (s : EnumerationState)
    (acc : List FileInfo) : Prop :=
  (s.entries = [] → s.isComplete = false → s.nextIndex = 0) ∧
  (∀ e ∈ s.entries, e.name ≠ "") ∧
  acc = (s.entries.take s.nextIndex).filter (fun e => matchP e.name)

/-! Concrete values used by witnesses and counterexamples. -/

/-- A freshly constructed ContentCache: all maps empty, the default one-hour
TTL (content_cache.h line 74). -/
def emptyCache : ContentCache :=
  { fileInfoCache := fun _ => none
    directoryCache := fun _ => none
    contentCache := fun _ => none
    ttl := 3600 }

/-- A sample file entry. -/
def demoInfo : FileInfo :=
  { name := "a.txt", hash := "", size := 3, isDirectory := false
    isBlobOrClob := false, mode := 0 }

/-- A sample listing. -/
def demoListing : DirectoryListing := { entries := [demoInfo] }

/-- A cache holding the root listing under the key "/" (the key the
enumeration and JS ingest paths use for the root) and a file-info entry for
the root child "/foo". -/
def rootListingCache : ContentCache :=
  { emptyCache with
    fileInfoCache := mapInsert emptyCache.fileInfoCache "/foo" ⟨demoInfo, 0⟩
    directoryCache :=
      mapInsert emptyCache.directoryCache "/" ⟨demoListing, 0⟩ }

/-- A cache holding file info and content for the regenerable invite file
"/invites/a.txt". -/
def inviteCache : ContentCache :=
  { emptyCache with
    fileInfoCache :=
      mapInsert emptyCache.fileInfoCache "/invites/a.txt" ⟨demoInfo, 0⟩
    contentCache :=
      mapInsert emptyCache.contentCache "/invites/a.txt"
        ⟨⟨[97, 98, 99], ""⟩, 0⟩ }

/-- A sample pending request at offset 0. -/
def demoReq : PendingFileRequest :=
  { virtualPath := "/invites/iom_invite.txt", byteOffset := 0, length := 64
    virtualizationContext := 0, dataStreamId := 0 }

/-- A sample pending request at offset 1. -/
def demoReq1 : PendingFileRequest :=
  { virtualPath := "/invites/iom_invite.txt", byteOffset := 1, length := 64
    virtualizationContext := 0, dataStreamId := 0 }

/-- Three bytes of sample content. -/
def demoContent : FileContent := { data := [97, 98, 99], hash := "" }

/-- A cache whose content map holds demoContent for the invite path. -/
def contentCache0 : ContentCache :=
  SetFileContent emptyCache "/invites/iom_invite.txt" demoContent 0

/-- A zero-length body. -/
def emptyContent : FileContent := { data := [], hash := "" }

/-- A cache whose content map holds a zero-length body for the invite
path. -/
def emptyContentCache : ContentCache :=
  SetFileContent emptyCache "/invites/iom_invite.txt" emptyContent 0

/-- A sample object store serving one hash path. -/
def demoStorage : String → Option (List Nat) :=
  fun q => if q = "/objects/abc" then some [1, 2, 3, 4] else none

/-- An enumeration session whose loop fuse has fired (call counter at the
ceiling). -/
def fusedState : EnumerationState :=
  { entries := [demoInfo], nextIndex := 0, isLoading := false
    isComplete := true, callCount := 100 }

/-! Helper lemmas. -/

theorem mapErase_same (m : String → Option α) (k : String) :
    mapErase m k k = none := by
  simp [mapErase]

theorem mapErase_other (m : String → Option α) {k q : String} (h : q ≠ k) :
    mapErase m k q = m q := by
  simp [mapErase, h]

theorem invalidatePath_fileInfoCache (c : ContentCache) (p : String) :
    (InvalidatePath c p).fileInfoCache = mapErase c.fileInfoCache p := by
  unfold InvalidatePath
  cases parentKey p <;> simp

theorem invalidatePath_contentCache (c : ContentCache) (p : String) :
    (InvalidatePath c p).contentCache = mapErase c.contentCache p := by
  unfold InvalidatePath
  cases parentKey p <;> simp

theorem invalidatePath_directoryCache_none {c : ContentCache} {p : String}
    (hk : parentKey p = none) :
    (InvalidatePath c p).directoryCache = mapErase c.directoryCache p := by
  unfold InvalidatePath
  rw [hk]

theorem invalidatePath_directoryCache_some {c : ContentCache} {p k : String}
    (hk : parentKey p = some k) :
    (InvalidatePath c p).directoryCache =
      mapErase (mapErase c.directoryCache p) k := by
  unfold InvalidatePath
  rw [hk]

theorem invalidatePath_ttl (c : ContentCache) (p : String) :
    (InvalidatePath c p).ttl = c.ttl := by
  unfold InvalidatePath
  cases parentKey p <;> simp

theorem mapErase_eraseAt (m : String → Option α) (p : String) :
    mapErase m p p = none :=
  mapErase_same m p

theorem lastSlashIdx_eq_none {l : List Char} (h : '/' ∉ l) :
    lastSlashIdx l = none := by
  induction l with
  | nil => rfl
  | cons c rest ih =>
    have hc : c ≠ '/' := fun hc => h (hc ▸ List.mem_cons_self c rest)
    have hrest : '/' ∉ rest := fun hr => h (List.mem_cons_of_mem c hr)
    simp [lastSlashIdx, ih hrest, hc]

theorem parentKey_root_child (nm : String) (h : '/' ∉ nm.toList) :
    parentKey ("/" ++ nm) = some "" := by
  have hdata : ("/" ++ nm).toList = '/' :: nm.toList := by
    show ("/" ++ nm).data = '/' :: nm.data
    simp [String.data_append]
  have h0 : lastSlashIdx ('/' :: nm.toList) = some 0 := by
    unfold lastSlashIdx
    rw [lastSlashIdx_eq_none h]
    rfl
  unfold parentKey
  rw [hdata, h0]
  rfl

theorem mapErase_comm (m : String → Option α) (a b : String) :
    mapErase (mapErase m a) b = mapErase (mapErase m b) a := by
  funext q
  by_cases h1 : q = a <;> by_cases h2 : q = b <;> simp [mapErase, h1, h2]

theorem mapErase_idem (m : String → Option α) (a : String) :
    mapErase (mapErase m a) a = mapErase m a := by
  funext q
  by_cases h : q = a <;> simp [mapErase, h]

theorem invalidatePath_idem (c : ContentCache) (p : String) :
    InvalidatePath (InvalidatePath c p) p = InvalidatePath c p := by
  cases hk : parentKey p with
  | none =>
    refine ContentCache.ext ?_ ?_ ?_ ?_
    · rw [invalidatePath_fileInfoCache, invalidatePath_fileInfoCache,
        mapErase_idem]
    · rw [invalidatePath_directoryCache_none hk,
        invalidatePath_directoryCache_none hk, mapErase_idem]
    · rw [invalidatePath_contentCache, invalidatePath_contentCache,
        mapErase_idem]
    · rw [invalidatePath_ttl, invalidatePath_ttl]
  | some k =>
    refine ContentCache.ext ?_ ?_ ?_ ?_
    · rw [invalidatePath_fileInfoCache, invalidatePath_fileInfoCache,
        mapErase_idem]
    · rw [invalidatePath_directoryCache_some hk,
        invalidatePath_directoryCache_some hk]
      funext q
      by_cases h1 : q = p <;> by_cases h2 : q = k <;>
        simp [mapErase, h1, h2]
    · rw [invalidatePath_contentCache, invalidatePath_contentCache,
        mapErase_idem]
    · rw [invalidatePath_ttl, invalidatePath_ttl]

/-! Claim theorems. -/

/-- C2: the Notification callback returns access-denied exactly for
new-file-created, file-overwritten, pre-delete, pre-rename, pre-set-hardlink
and unrecognized kinds; file-opened, close-without-modification,
pre-convert-to-full and the four post-operation kinds return success. -/
theorem notification_decision_table (n : Notification) :
    (NotificationCallbackResult n = .ERROR_ACCESS_DENIED ↔
      (n = .NEW_FILE_CREATED ∨ n = .FILE_OVERWRITTEN ∨ n = .PRE_DELETE ∨
        n = .PRE_RENAME ∨ n = .PRE_SET_HARDLINK ∨
        ∃ code, n = .UNKNOWN code)) ∧
    NotificationCallbackResult .FILE_OPENED = .S_OK ∧
    NotificationCallbackResult .FILE_HANDLE_CLOSED_NO_MODIFICATION = .S_OK ∧
    NotificationCallbackResult .FILE_PRE_CONVERT_TO_FULL = .S_OK ∧
    NotificationCallbackResult .FILE_RENAMED = .S_OK ∧
    NotificationCallbackResult .HARDLINK_CREATED = .S_OK ∧
    NotificationCallbackResult .FILE_HANDLE_CLOSED_FILE_MODIFIED = .S_OK ∧
    NotificationCallbackResult .FILE_HANDLE_CLOSED_FILE_DELETED = .S_OK := by
  refine ⟨?_, rfl, rfl, rfl, rfl, rfl, rfl, rfl⟩
  cases n <;> simp [NotificationCallbackResult]

/-- C8: a get within the TTL after a set returns exactly the stored value,
for both the file-info map and the directory-listing map. -/
theorem cache_roundtrip_within_ttl (c : ContentCache) (p : String)
    (i : FileInfo) (l : DirectoryListing) (t0 t : Nat)
    (h : t - t0 < c.ttl) :
    GetFileInfo (SetFileInfo c p i t0) p t = some i ∧
    GetDirectoryListing (SetDirectoryListing c p l t0) p t = some l := by
  constructor <;>
    simp [GetFileInfo, SetFileInfo, GetDirectoryListing, SetDirectoryListing,
      mapInsert, CacheEntry.IsValid, h]

/-- Witness for C8 at concrete inputs. -/
theorem cache_roundtrip_within_ttl_witness :
    GetFileInfo (SetFileInfo emptyCache "/a" demoInfo 2) "/a" 5 =
      some demoInfo ∧
    GetDirectoryListing (SetDirectoryListing emptyCache "/a" demoListing 2)
      "/a" 5 = some demoListing :=
  cache_roundtrip_within_ttl emptyCache "/a" demoInfo demoListing 2 5
    (by decide)

/-- C7 counterexample: invalidating the single-segment path "/foo" does not
remove the root listing cached under "/" — the parent key computed from
rfind is the empty string, so the cached listing of the parent directory
survives, contradicting the claim for paths directly under the root. -/
theorem invalidate_root_child_keeps_root_listing :
    (InvalidatePath rootListingCache "/foo").directoryCache "/" =
      some ⟨demoListing, 0⟩ ∧
    parentKey "/foo" = some "" := by
  constructor <;> decide

/-- C7 amended: invalidate(p) removes p from all three maps and removes the
directory-listing entry under the key obtained by truncating p at its last
slash; for a root child "/name" that key is the empty string (so the root
listing under "/" is untouched); entries under any other key are unchanged,
and a second invalidate is a no-op. -/
theorem invalidate_path_amended (c : ContentCache) (p q : String) :
    ((InvalidatePath c p).fileInfoCache p = none ∧
      (InvalidatePath c p).directoryCache p = none ∧
      (InvalidatePath c p).contentCache p = none) ∧
    (∀ k, parentKey p = some k →
      (InvalidatePath c p).directoryCache k = none) ∧
    (q ≠ p →
      (InvalidatePath c p).fileInfoCache q = c.fileInfoCache q ∧
      (InvalidatePath c p).contentCache q = c.contentCache q ∧
      ((∀ k, parentKey p = some k → q ≠ k) →
        (InvalidatePath c p).directoryCache q = c.directoryCache q)) ∧
    (∀ nm : String, '/' ∉ nm.toList →
      parentKey ("/" ++ nm) = some "") ∧
    InvalidatePath (InvalidatePath c p) p = InvalidatePath c p := by
  refine ⟨⟨?_, ?_, ?_⟩, ?_, ?_, ?_, ?_⟩
  · rw [invalidatePath_fileInfoCache]
    exact mapErase_same _ _
  · cases hk : parentKey p with
    | none =>
      rw [invalidatePath_directoryCache_none hk]
      exact mapErase_same _ _
    | some k =>
      rw [invalidatePath_directoryCache_some hk]
      by_cases h : p = k <;> simp [mapErase, h]
  · rw [invalidatePath_contentCache]
    exact mapErase_same _ _
  · intro k hk
    rw [invalidatePath_directoryCache_some hk]
    exact mapErase_same _ _
  · intro hqp
    refine ⟨?_, ?_, ?_⟩
    · rw [invalidatePath_fileInfoCache]
      exact mapErase_other _ hqp
    · rw [invalidatePath_contentCache]
      exact mapErase_other _ hqp
    · intro hqk
      cases hk : parentKey p with
      | none =>
        rw [invalidatePath_directoryCache_none hk]
        exact mapErase_other _ hqp
      | some k =>
        rw [invalidatePath_directoryCache_some hk,
          mapErase_other _ (hqk k hk)]
        exact mapErase_other _ hqp
  · exact fun nm h => parentKey_root_child nm h
  · exact invalidatePath_idem c p

/-- Witness for C7's amended theorem at concrete inputs, with every
hypothesis discharged. -/
theorem invalidate_path_amended_witness :
    (InvalidatePath rootListingCache "/foo").fileInfoCache "/foo" = none ∧
    (InvalidatePath rootListingCache "/foo").directoryCache "" = none ∧
    (InvalidatePath rootListingCache "/foo").fileInfoCache "/" =
      rootListingCache.fileInfoCache "/" ∧
    (InvalidatePath rootListingCache "/foo").directoryCache "/" =
      rootListingCache.directoryCache "/" ∧
    parentKey ("/" ++ "foo") = some "" ∧
    InvalidatePath (InvalidatePath rootListingCache "/foo") "/foo" =
      InvalidatePath rootListingCache "/foo" :=
  ⟨(invalidate_path_amended rootListingCache "/foo" "/").1.1,
    (invalidate_path_amended rootListingCache "/foo" "/").2.1 "" (by decide),
    ((invalidate_path_amended rootListingCache "/foo" "/").2.2.1
      (by decide)).1,
    ((invalidate_path_amended rootListingCache "/foo" "/").2.2.1
        (by decide)).2.2
      (fun k hk => by
        have h0 : parentKey "/foo" = some "" := by decide
        rw [h0] at hk
        injection hk with h1
        subst h1
        decide),
    (invalidate_path_amended rootListingCache "/foo" "/").2.2.2.1 "foo"
      (by decide),
    (invalidate_path_amended rootListingCache "/foo" "/").2.2.2.2⟩

/-- C6 counterexample: the Notification callback, on close-deleted for the
invite path, returns success and leaves every cache entry for that path in
place — it performs no invalidation at all, contradicting the claim. -/
theorem close_deleted_leaves_cache :
    (NotificationCallbackStep .FILE_HANDLE_CLOSED_FILE_DELETED
        "/invites/a.txt" inviteCache).1 = .S_OK ∧
    (NotificationCallbackStep .FILE_HANDLE_CLOSED_FILE_DELETED
        "/invites/a.txt" inviteCache).2.fileInfoCache "/invites/a.txt" =
      some ⟨demoInfo, 0⟩ ∧
    (NotificationCallbackStep .FILE_HANDLE_CLOSED_FILE_DELETED
        "/invites/a.txt" inviteCache).2.contentCache "/invites/a.txt" =
      some ⟨⟨[97, 98, 99], ""⟩, 0⟩ := by
  refine ⟨rfl, ?_, ?_⟩ <;> decide

/-- C6 amended: the Notification callback returns success for close-deleted
and leaves the cache untouched; cache and tombstone invalidation for deleted
regenerable files is instead performed by the host-side file watcher calling
InvalidateTombstone, which — when the provider is running and the platform
tombstone delete succeeds — invalidates every cache entry for the path. -/
theorem close_deleted_amended (p : String) (c : ContentCache) :
    NotificationCallbackStep .FILE_HANDLE_CLOSED_FILE_DELETED p c =
      (.S_OK, c) ∧
    InvalidateTombstone true .succeeded c p = (true, InvalidatePath c p) ∧
    (InvalidatePath c p).fileInfoCache p = none ∧
    (InvalidatePath c p).directoryCache p = none ∧
    (InvalidatePath c p).contentCache p = none := by
  refine ⟨rfl, rfl, ?_, ?_, ?_⟩
  · rw [invalidatePath_fileInfoCache]
    exact mapErase_same _ _
  · cases hk : parentKey p with
    | none =>
      rw [invalidatePath_directoryCache_none hk]
      exact mapErase_same _ _
    | some k =>
      rw [invalidatePath_directoryCache_some hk]
      by_cases h : p = k <;> simp [mapErase, h]
  · rw [invalidatePath_contentCache]
    exact mapErase_same _ _

/-! Helper lemmas for the data-delivery claims. -/

theorem serveContent_hr (data : List Nat) (off len : Nat) :
    (serveContent data off len).1 = .S_OK := by
  unfold serveContent
  by_cases h : data.length ≤ off <;> simp [h]

theorem serveContent_written (data : List Nat) (off len : Nat) :
    (serveContent data off len).2 =
      if data.length ≤ off then []
      else (data.drop off).take (min len (data.length - off)) := by
  unfold serveContent
  by_cases h : data.length ≤ off <;> simp [h]

theorem serveContent_length (data : List Nat) (off len : Nat) :
    (serveContent data off len).2.length =
      if data.length ≤ off then 0 else min len (data.length - off) := by
  rw [serveContent_written]
  by_cases h : data.length ≤ off <;>
    simp [h, List.length_take, List.length_drop, min_assoc, min_self]

theorem completeOne_commandId (hasCache : Bool) (cache : ContentCache)
    (now : Nat) (vpath : String) (cid : Nat) (r : PendingFileRequest) :
    (completeOne hasCache cache now vpath cid r).commandId = cid := by
  unfold completeOne
  cases hasCache with
  | false => rfl
  | true =>
    cases GetFileContent cache vpath now with
    | none => rfl
    | some content =>
      by_cases h1 : content.data = [] <;>
        by_cases h2 : r.byteOffset < content.data.length <;>
        simp [h1, h2]

theorem completeOne_hr (hasCache : Bool) (cache : ContentCache)
    (now : Nat) (vpath : String) (cid : Nat) (r : PendingFileRequest) :
    (completeOne hasCache cache now vpath cid r).hr = .S_OK ∨
    (completeOne hasCache cache now vpath cid r).hr =
      .ERROR_FILE_NOT_FOUND := by
  unfold completeOne
  cases hasCache with
  | false => simp
  | true =>
    cases GetFileContent cache vpath now with
    | none => simp
    | some content =>
      by_cases h1 : content.data = [] <;>
        by_cases h2 : r.byteOffset < content.data.length <;>
        simp [h1, h2]

theorem completePending_events (hasCache : Bool) (cache : ContentCache)
    (now : Nat) (pending : List (Nat × PendingFileRequest))
    (vpath : String) :
    (CompletePendingFileRequests hasCache cache now pending vpath).1 =
      (pending.filter (fun e => normalizeComparePath e.2.virtualPath =
        normalizeComparePath vpath)).map
        (fun e => completeOne hasCache cache now vpath e.1 e.2) := rfl

theorem completePending_map (hasCache : Bool) (cache : ContentCache)
    (now : Nat) (pending : List (Nat × PendingFileRequest))
    (vpath : String) :
    (CompletePendingFileRequests hasCache cache now pending vpath).2 =
      pending.filter (fun e => e.1 ∉
        (pending.filter (fun x => normalizeComparePath x.2.virtualPath =
          normalizeComparePath vpath)).map Prod.fst) := rfl

theorem pending_keys_unique {l : List (Nat × PendingFileRequest)}
    (h : (l.map Prod.fst).Nodup) {cid : Nat} {r r' : PendingFileRequest}
    (h1 : (cid, r) ∈ l) (h2 : (cid, r') ∈ l) : r = r' := by
  induction l with
  | nil => cases h1
  | cons e t ih =>
    rw [List.map_cons, List.nodup_cons] at h
    rcases List.mem_cons.mp h1 with he1 | ht1 <;>
      rcases List.mem_cons.mp h2 with he2 | ht2
    · have h12 : (cid, r) = (cid, r') := he1.trans he2.symm
      exact congrArg Prod.snd h12
    · exfalso
      have hkey : cid ∈ t.map Prod.fst :=
        List.mem_map_of_mem Prod.fst ht2
      have hnot : e.1 ∉ t.map Prod.fst := h.1
      rw [← he1] at hnot
      exact hnot hkey
    · exfalso
      have hkey : cid ∈ t.map Prod.fst :=
        List.mem_map_of_mem Prod.fst ht1
      have hnot : e.1 ∉ t.map Prod.fst := h.1
      rw [← he2] at hnot
      exact hnot hkey
    · exact ih h.2 ht1 ht2

/-- C3: CompletePendingFileRequests completes every matching pending request
through the platform completion primitive exactly once, with a success,
file-not-found or out-of-memory status, and afterwards the pending map no
longer contains that command id. -/
theorem complete_pending_exactly_once (hasCache : Bool)
    (cache : ContentCache) (now : Nat)
    (pending : List (Nat × PendingFileRequest)) (vpath : String)
    (cid : Nat) (r : PendingFileRequest)
    (hnodup : (pending.map Prod.fst).Nodup)
    (hmem : (cid, r) ∈ pending)
    (hmatch : normalizeComparePath r.virtualPath =
      normalizeComparePath vpath) :
    (((CompletePendingFileRequests hasCache cache now pending vpath).1.filter
        (fun e => e.commandId = cid)).length = 1) ∧
    (∀ e ∈ (CompletePendingFileRequests hasCache cache now pending vpath).1,
      e.hr = .S_OK ∨ e.hr = .ERROR_FILE_NOT_FOUND ∨
        e.hr = .E_OUTOFMEMORY) ∧
    (∀ e ∈ (CompletePendingFileRequests hasCache cache now pending vpath).2,
      e.1 ≠ cid) := by
  refine ⟨?_, ?_, ?_⟩
  · rw [completePending_events, ← List.countP_eq_length_filter,
      List.countP_map]
    have hcong1 : ∀ a ∈ pending.filter (fun e =>
        normalizeComparePath e.2.virtualPath = normalizeComparePath vpath),
        (((fun e : CompletionEvent => decide (e.commandId = cid)) ∘
          (fun e : Nat × PendingFileRequest =>
            completeOne hasCache cache now vpath e.1 e.2)) a = true ↔
          decide (a.1 = cid) = true) := by
      intro a _
      simp [Function.comp, completeOne_commandId]
    rw [List.countP_congr hcong1, List.countP_filter]
    have hcong2 : ∀ a ∈ pending,
        ((decide (a.1 = cid) &&
          decide (normalizeComparePath a.2.virtualPath =
            normalizeComparePath vpath)) = true ↔
          decide (a.1 = cid) = true) := by
      intro a ha
      obtain ⟨a1, a2⟩ := a
      by_cases h : a1 = cid
      · subst h
        have har : a2 = r := pending_keys_unique hnodup ha hmem
        subst har
        simp [hmatch]
      · simp [h]
    rw [List.countP_congr hcong2]
    have hmapped : List.countP (fun a : Nat × PendingFileRequest =>
        decide (a.1 = cid)) pending =
        List.countP (fun k => decide (k = cid)) (pending.map Prod.fst) := by
      rw [List.countP_map]
      rfl
    rw [hmapped]
    have hbeq : ∀ k ∈ pending.map Prod.fst,
        (decide (k = cid) = true ↔ (k == cid) = true) := by
      intro k _
      by_cases h : k = cid <;> simp [h]
    rw [List.countP_congr hbeq]
    exact List.count_eq_one_of_mem hnodup
      (List.mem_map_of_mem Prod.fst hmem)
  · intro e he
    rw [completePending_events] at he
    obtain ⟨a, _, rfl⟩ := List.mem_map.mp he
    rcases completeOne_hr hasCache cache now vpath a.1 a.2 with h | h
    · exact Or.inl h
    · exact Or.inr (Or.inl h)
  · intro e he
    rw [completePending_map] at he
    have hnot := List.of_mem_filter he
    intro hcid
    have hidm : ((cid, r) : Nat × PendingFileRequest).1 ∈
        (pending.filter (fun x =>
          normalizeComparePath x.2.virtualPath =
            normalizeComparePath vpath)).map Prod.fst :=
      List.mem_map_of_mem Prod.fst
        (List.mem_filter.mpr ⟨hmem, by simp [hmatch]⟩)
    simp only [decide_eq_true_eq] at hnot
    refine hnot ?_
    rw [hcid]
    exact hidm

theorem getFileData_cacheHit {cache : ContentCache} {p : String} {now : Nat}
    {content : FileContent} (hc : GetFileContent cache p now = some content)
    (hne : content.data ≠ []) (storage : String → Option (List Nat))
    (pending : List (Nat × PendingFileRequest))
    (cid off len ctx dsid : Nat) :
    GetFileDataCallback true cache now storage pending cid p off len ctx
        dsid =
      { hr := (serveContent content.data off len).1
        written := (serveContent content.data off len).2
        pending := pending } := by
  unfold GetFileDataCallback
  rw [hc]
  simp [hne]

theorem getFileData_objectHit {cache : ContentCache} {p : String} {now : Nat}
    (hc : GetFileContent cache p now = none)
    (hpre : isObjectsPath p = true)
    {storage : String → Option (List Nat)} {data : List Nat}
    (hs : storage p = some data)
    (pending : List (Nat × PendingFileRequest))
    (cid off len ctx dsid : Nat) :
    GetFileDataCallback true cache now storage pending cid p off len ctx
        dsid =
      { hr := (serveContent data off len).1
        written := (serveContent data off len).2
        pending := pending } := by
  unfold GetFileDataCallback
  rw [hc]
  simp [hpre, hs]

theorem getFileData_deferred {cache : ContentCache} {p : String} {now : Nat}
    {content : FileContent}
    (hc : GetFileContent cache p now = some content)
    (he : content.data = [])
    (hobj : isObjectsPath p = false)
    (storage : String → Option (List Nat))
    (pending : List (Nat × PendingFileRequest))
    (cid off len ctx dsid : Nat) :
    GetFileDataCallback true cache now storage pending cid p off len ctx
        dsid =
      { hr := .ERROR_IO_PENDING
        written := []
        pending := insertPending pending cid ⟨p, off, len, ctx, dsid⟩ } := by
  unfold GetFileDataCallback
  rw [hc]
  simp [he, hobj]

theorem completeOne_window {cache : ContentCache} {vpath : String}
    {now : Nat} {content : FileContent}
    (hc : GetFileContent cache vpath now = some content)
    (hne : content.data ≠ []) (cid : Nat) (r : PendingFileRequest) :
    completeOne true cache now vpath cid r =
      { commandId := cid
        hr := .S_OK
        written := (content.data.drop r.byteOffset).take
          (min r.length (content.data.length - r.byteOffset)) } := by
  unfold completeOne
  rw [if_pos rfl, hc]
  by_cases h2 : r.byteOffset < content.data.length
  · simp [hne, h2]
  · simp [hne, h2, List.drop_eq_nil_of_le (not_lt.mp h2)]

theorem completeOne_emptyContent {cache : ContentCache} {vpath : String}
    {now : Nat} {content : FileContent}
    (hc : GetFileContent cache vpath now = some content)
    (he : content.data = []) (cid : Nat) (r : PendingFileRequest) :
    completeOne true cache now vpath cid r =
      { commandId := cid, hr := .ERROR_FILE_NOT_FOUND, written := [] } := by
  unfold completeOne
  rw [if_pos rfl, hc]
  simp [he]

/-- C4: every file-data request served against content of size s completes
with success and the clipped window — zero bytes when the offset is at or
past s, otherwise exactly min(length, s − offset) bytes starting at the
offset — on the synchronous cache path, the object-store path, and the
deferred-completion path. -/
theorem file_data_byte_window :
    (∀ (cache : ContentCache) (now : Nat)
      (storage : String → Option (List Nat))
      (pending : List (Nat × PendingFileRequest)) (cid : Nat) (p : String)
      (off len ctx dsid : Nat) (content : FileContent),
      GetFileContent cache p now = some content → content.data ≠ [] →
      (GetFileDataCallback true cache now storage pending cid p off len ctx
          dsid).hr = .S_OK ∧
      (GetFileDataCallback true cache now storage pending cid p off len ctx
          dsid).written =
        (content.data.drop off).take
          (min len (content.data.length - off)) ∧
      (GetFileDataCallback true cache now storage pending cid p off len ctx
          dsid).written.length =
        (if content.data.length ≤ off then 0
          else min len (content.data.length - off))) ∧
    (∀ (cache : ContentCache) (now : Nat)
      (storage : String → Option (List Nat)) (data : List Nat)
      (pending : List (Nat × PendingFileRequest)) (cid : Nat) (p : String)
      (off len ctx dsid : Nat),
      GetFileContent cache p now = none →
      isObjectsPath p = true → storage p = some data →
      (GetFileDataCallback true cache now storage pending cid p off len ctx
          dsid).hr = .S_OK ∧
      (GetFileDataCallback true cache now storage pending cid p off len ctx
          dsid).written =
        (data.drop off).take (min len (data.length - off)) ∧
      (GetFileDataCallback true cache now storage pending cid p off len ctx
          dsid).written.length =
        (if data.length ≤ off then 0 else min len (data.length - off))) ∧
    (∀ (cache : ContentCache) (now : Nat)
      (pending : List (Nat × PendingFileRequest)) (vpath : String)
      (cid : Nat) (r : PendingFileRequest) (content : FileContent),
      GetFileContent cache vpath now = some content → content.data ≠ [] →
      (cid, r) ∈ pending →
      normalizeComparePath r.virtualPath = normalizeComparePath vpath →
      ({ commandId := cid
         hr := .S_OK
         written := (content.data.drop r.byteOffset).take
           (min r.length (content.data.length - r.byteOffset)) } :
          CompletionEvent) ∈
        (CompletePendingFileRequests true cache now pending vpath).1) := by
  refine ⟨?_, ?_, ?_⟩
  · intro cache now storage pending cid p off len ctx dsid content hc hne
    rw [getFileData_cacheHit hc hne storage pending cid off len ctx dsid]
    refine ⟨serveContent_hr _ _ _, ?_, serveContent_length _ _ _⟩
    rw [serveContent_written]
    by_cases h : content.data.length ≤ off
    · simp [h, List.drop_eq_nil_of_le h]
    · simp [h]
  · intro cache now storage data pending cid p off len ctx dsid hc hpre hs
    rw [getFileData_objectHit hc hpre hs pending cid off len ctx dsid]
    refine ⟨serveContent_hr _ _ _, ?_, serveContent_length _ _ _⟩
    rw [serveContent_written]
    by_cases h : data.length ≤ off
    · simp [h, List.drop_eq_nil_of_le h]
    · simp [h]
  · intro cache now pending vpath cid r content hc hne hmem hmatch
    rw [completePending_events]
    exact List.mem_map.mpr ⟨(cid, r),
      List.mem_filter.mpr ⟨hmem, by simp [hmatch]⟩,
      completeOne_window hc hne cid r⟩

/-- C10: a cached zero-length body is treated as a miss — GetFileData takes
the deferred IO-pending path for non-object paths instead of serving zero
bytes, and the completion pass then completes such suspended commands with
file-not-found, so a zero-byte file is never served successfully from the
content cache. -/
theorem zero_byte_content_is_miss (cache : ContentCache) (now : Nat)
    (storage : String → Option (List Nat))
    (pending : List (Nat × PendingFileRequest)) (cid : Nat) (p : String)
    (off len ctx dsid : Nat) (content : FileContent)
    (hc : GetFileContent cache p now = some content)
    (he : content.data = [])
    (hobj : isObjectsPath p = false) :
    (GetFileDataCallback true cache now storage pending cid p off len ctx
        dsid).hr = .ERROR_IO_PENDING ∧
    (GetFileDataCallback true cache now storage pending cid p off len ctx
        dsid).written = [] ∧
    (GetFileDataCallback true cache now storage pending cid p off len ctx
        dsid).pending =
      insertPending pending cid ⟨p, off, len, ctx, dsid⟩ ∧
    (∀ (pending2 : List (Nat × PendingFileRequest)) (cid2 : Nat)
      (r : PendingFileRequest),
      (cid2, r) ∈ pending2 →
      normalizeComparePath r.virtualPath = normalizeComparePath p →
      ({ commandId := cid2, hr := .ERROR_FILE_NOT_FOUND, written := [] } :
          CompletionEvent) ∈
        (CompletePendingFileRequests true cache now pending2 p).1) := by
  rw [getFileData_deferred hc he hobj storage pending cid off len ctx dsid]
  refine ⟨rfl, rfl, rfl, ?_⟩
  intro pending2 cid2 r hmem hmatch
  rw [completePending_events]
  exact List.mem_map.mpr ⟨(cid2, r),
    List.mem_filter.mpr ⟨hmem, by simp [hmatch]⟩,
    completeOne_emptyContent hc he cid2 r⟩

/-- Witness for C3 at concrete inputs. -/
theorem complete_pending_exactly_once_witness :
    (((CompletePendingFileRequests true emptyCache 0 [(42, demoReq)]
        "/invites/iom_invite.txt").1.filter
        (fun e => e.commandId = 42)).length = 1) ∧
    (∀ e ∈ (CompletePendingFileRequests true emptyCache 0 [(42, demoReq)]
        "/invites/iom_invite.txt").1,
      e.hr = .S_OK ∨ e.hr = .ERROR_FILE_NOT_FOUND ∨
        e.hr = .E_OUTOFMEMORY) ∧
    (∀ e ∈ (CompletePendingFileRequests true emptyCache 0 [(42, demoReq)]
        "/invites/iom_invite.txt").2, e.1 ≠ 42) :=
  complete_pending_exactly_once true emptyCache 0 [(42, demoReq)]
    "/invites/iom_invite.txt" 42 demoReq (by decide)
    (List.mem_singleton.mpr rfl) rfl

/-- Witness for C4 at concrete inputs: a three-byte cached body read at
offset 1 with length 64, a four-byte object-store body read at offset 2
with length 10, and a deferred completion of the three-byte body at
offset 1. -/
theorem file_data_byte_window_witness :
    ((GetFileDataCallback true contentCache0 0 demoStorage [] 7
        "/invites/iom_invite.txt" 1 64 0 0).hr = .S_OK ∧
      (GetFileDataCallback true contentCache0 0 demoStorage [] 7
          "/invites/iom_invite.txt" 1 64 0 0).written =
        (demoContent.data.drop 1).take
          (min 64 (demoContent.data.length - 1)) ∧
      (GetFileDataCallback true contentCache0 0 demoStorage [] 7
          "/invites/iom_invite.txt" 1 64 0 0).written.length =
        (if demoContent.data.length ≤ 1 then 0
          else min 64 (demoContent.data.length - 1))) ∧
    ((GetFileDataCallback true emptyCache 0 demoStorage [] 7
        "/objects/abc" 2 10 0 0).hr = .S_OK ∧
      (GetFileDataCallback true emptyCache 0 demoStorage [] 7
          "/objects/abc" 2 10 0 0).written =
        (List.drop 2 [1, 2, 3, 4]).take
          (min 10 (List.length [1, 2, 3, 4] - 2)) ∧
      (GetFileDataCallback true emptyCache 0 demoStorage [] 7
          "/objects/abc" 2 10 0 0).written.length =
        (if List.length [1, 2, 3, 4] ≤ 2 then 0
          else min 10 (List.length [1, 2, 3, 4] - 2))) ∧
    ({ commandId := 7
       hr := .S_OK
       written := (demoContent.data.drop demoReq1.byteOffset).take
         (min demoReq1.length
           (demoContent.data.length - demoReq1.byteOffset)) } :
        CompletionEvent) ∈
      (CompletePendingFileRequests true contentCache0 0 [(7, demoReq1)]
        "/invites/iom_invite.txt").1 :=
  ⟨file_data_byte_window.1 contentCache0 0 demoStorage [] 7
      "/invites/iom_invite.txt" 1 64 0 0 demoContent (by decide) (by decide),
    file_data_byte_window.2.1 emptyCache 0 demoStorage [1, 2, 3, 4] [] 7
      "/objects/abc" 2 10 0 0 rfl (by decide) (by decide),
    file_data_byte_window.2.2 contentCache0 0 [(7, demoReq1)]
      "/invites/iom_invite.txt" 7 demoReq1 demoContent (by decide)
      (by decide) (List.mem_singleton.mpr rfl) rfl⟩

/-- Witness for C10 at concrete inputs: a zero-length cached body for the
invite path goes IO-pending and its deferred completion reports
file-not-found. -/
theorem zero_byte_content_is_miss_witness :
    (GetFileDataCallback true emptyContentCache 0 demoStorage [] 7
        "/invites/iom_invite.txt" 0 64 0 0).hr = .ERROR_IO_PENDING ∧
    (GetFileDataCallback true emptyContentCache 0 demoStorage [] 7
        "/invites/iom_invite.txt" 0 64 0 0).written = [] ∧
    (GetFileDataCallback true emptyContentCache 0 demoStorage [] 7
        "/invites/iom_invite.txt" 0 64 0 0).pending =
      insertPending [] 7 ⟨"/invites/iom_invite.txt", 0, 64, 0, 0⟩ ∧
    ({ commandId := 9, hr := .ERROR_FILE_NOT_FOUND, written := [] } :
        CompletionEvent) ∈
      (CompletePendingFileRequests true emptyContentCache 0 [(9, demoReq)]
        "/invites/iom_invite.txt").1 :=
  have h := zero_byte_content_is_miss emptyContentCache 0 demoStorage [] 7
    "/invites/iom_invite.txt" 0 64 0 0 emptyContent (by decide) rfl
    (by decide)
  ⟨h.1, h.2.1, h.2.2.1,
    h.2.2.2 [(9, demoReq)] 9 demoReq (List.mem_singleton.mpr rfl) rfl⟩

/-! Helper lemmas for the enumeration claims. -/

theorem fillLoop_mono (matchP : String → Bool) :
    ∀ (l : List FileInfo) (idx cap : Nat),
      idx ≤ (fillLoop matchP l idx cap).1 := by
  intro l
  induction l with
  | nil =>
    intro idx cap
    exact Nat.le_refl idx
  | cons e rest ih =>
    intro idx cap
    unfold fillLoop
    split
    · exact le_trans (Nat.le_succ idx) (ih (idx + 1) cap)
    · split
      · exact le_trans (Nat.le_succ idx) (ih (idx + 1) cap)
      · split
        · exact Nat.le_refl idx
        · exact le_trans (Nat.le_succ idx) (ih (idx + 1) (cap - 1))

theorem fillLoop_spec (matchP : String → Bool) :
    ∀ (l : List FileInfo) (idx cap : Nat), (∀ e ∈ l, e.name ≠ "") →
      ∃ k, k ≤ l.length ∧ (fillLoop matchP l idx cap).1 = idx + k ∧
        (fillLoop matchP l idx cap).2 =
          (l.take k).filter (fun e => matchP e.name) := by
  intro l
  induction l with
  | nil =>
    intro idx cap _
    exact ⟨0, Nat.le_refl 0, by simp [fillLoop], by simp [fillLoop]⟩
  | cons e rest ih =>
    intro idx cap hn
    have hne : e.name ≠ "" := hn e (List.mem_cons_self e rest)
    have hrest : ∀ x ∈ rest, x.name ≠ "" :=
      fun x hx => hn x (List.mem_cons_of_mem e hx)
    by_cases hm : matchP e.name
    · by_cases hcap : cap = 0
      · refine ⟨0, Nat.zero_le _, ?_, ?_⟩ <;>
          simp [fillLoop, hne, hm, hcap]
      · obtain ⟨k, hk, h1, h2⟩ := ih (idx + 1) (cap - 1) hrest
        refine ⟨k + 1, by simpa using Nat.succ_le_succ hk, ?_, ?_⟩
        · unfold fillLoop
          simp only [hne, hm, hcap, ite_false, ite_true, if_neg, if_pos,
            not_true, not_false_iff]
          simp [h1]
          omega
        · unfold fillLoop
          simp [hne, hm, hcap, h2]
    · obtain ⟨k, hk, h1, h2⟩ := ih (idx + 1) cap hrest
      refine ⟨k + 1, by simpa using Nat.succ_le_succ hk, ?_, ?_⟩
      · unfold fillLoop
        simp [hne, hm, h1]
        omega
      · unfold fillLoop
        simp [hne, hm, h2]

theorem fillLoop_all (matchP : String → Bool) :
    ∀ (l : List FileInfo) (idx cap : Nat),
      (∀ e ∈ l, e.name ≠ "" ∧ matchP e.name = true) → l.length ≤ cap →
      fillLoop matchP l idx cap = (idx + l.length, l) := by
  intro l
  induction l with
  | nil =>
    intro idx cap _ _
    simp [fillLoop]
  | cons e rest ih =>
    intro idx cap h hcap
    obtain ⟨hne, hm⟩ := h e (List.mem_cons_self e rest)
    have hcap0 : ¬ cap = 0 := by
      simp only [List.length_cons] at hcap
      omega
    have hrec := ih (idx + 1) (cap - 1)
      (fun x hx => h x (List.mem_cons_of_mem e hx))
      (by simp only [List.length_cons] at hcap; omega)
    unfold fillLoop
    simp [hne, hm, hcap0, hrec]
    omega

theorem enumCapture_callCount (fetch : Option (List FileInfo))
    (s : EnumerationState) : (enumCapture fetch s).callCount = s.callCount := by
  unfold enumCapture
  split
  · cases fetch <;> rfl
  · rfl

theorem enumCapture_nextIndex (fetch : Option (List FileInfo))
    (s : EnumerationState) : (enumCapture fetch s).nextIndex = s.nextIndex := by
  unfold enumCapture
  split
  · cases fetch <;> rfl
  · rfl

theorem enumServe_callCount (matchP : String → Bool) (cap : Nat)
    (s : EnumerationState) :
    (enumServe matchP cap s).state.callCount = s.callCount := by
  unfold enumServe
  split <;> rfl

theorem enumServe_entries (matchP : String → Bool) (cap : Nat)
    (s : EnumerationState) :
    (enumServe matchP cap s).state.entries = s.entries := by
  unfold enumServe
  split <;> rfl

theorem enumServe_hr (matchP : String → Bool) (cap : Nat)
    (s : EnumerationState) : (enumServe matchP cap s).hr = .S_OK := by
  unfold enumServe
  split <;> rfl

theorem enumServe_mono (matchP : String → Bool) (cap : Nat)
    (s : EnumerationState) :
    s.nextIndex ≤ (enumServe matchP cap s).state.nextIndex := by
  unfold enumServe
  split
  · exact Nat.le_refl _
  · exact fillLoop_mono matchP (s.entries.drop s.nextIndex) s.nextIndex cap

theorem enumServe_acc (matchP : String → Bool) (cap : Nat)
    {s : EnumerationState} {acc : List FileInfo}
    (hn : ∀ e ∈ s.entries, e.name ≠ "")
    (hacc : acc = (s.entries.take s.nextIndex).filter
      (fun e => matchP e.name)) :
    acc ++ (enumServe matchP cap s).emitted =
      ((s.entries.take (enumServe matchP cap s).state.nextIndex).filter
        (fun e => matchP e.name)) := by
  unfold enumServe
  split
  · simpa using hacc
  · obtain ⟨k, hk, h1, h2⟩ := fillLoop_spec matchP
      (s.entries.drop s.nextIndex) s.nextIndex cap
      (fun x hx => hn x (List.mem_of_mem_drop hx))
    simp only [h1, h2, hacc]
    rw [← List.filter_append, ← List.take_add]

theorem enumServe_fresh (matchP : String → Bool) (cap : Nat)
    (s : EnumerationState) :
    (enumServe matchP cap s).state.entries = [] →
    (enumServe matchP cap s).state.isComplete = false →
    (enumServe matchP cap s).state.nextIndex = 0 := by
  unfold enumServe
  split
  · intro _ hcomp
    simp at hcomp
  · rename_i h
    intro hent _
    exfalso
    have hent2 : s.entries = [] := hent
    rw [hent2] at h
    simp at h

theorem enumCall_fuse_eq (matchP : String → Bool)
    (fetch : Option (List FileInfo)) (cap : Nat) {s : EnumerationState}
    (h : MAX_CALLS_PER_ENUM < s.callCount + 1) :
    GetDirectoryEnumerationCallback matchP fetch false cap s =
      { hr := .S_OK, emitted := []
        state := { s with callCount := s.callCount + 1 } } := by
  unfold GetDirectoryEnumerationCallback
  simp [h]

theorem enumCall_nofuse_eq (matchP : String → Bool)
    (fetch : Option (List FileInfo)) (cap : Nat) {s : EnumerationState}
    (h : ¬ MAX_CALLS_PER_ENUM < s.callCount + 1) :
    GetDirectoryEnumerationCallback matchP fetch false cap s =
      enumServe matchP cap
        (enumCapture fetch { s with callCount := s.callCount + 1 }) := by
  unfold GetDirectoryEnumerationCallback
  simp [h]

theorem enumCall_callCount (matchP : String → Bool)
    (fetch : Option (List FileInfo)) (cap : Nat) (s : EnumerationState) :
    (GetDirectoryEnumerationCallback matchP fetch false cap s).state.callCount
      = s.callCount + 1 := by
  by_cases h : MAX_CALLS_PER_ENUM < s.callCount + 1
  · rw [enumCall_fuse_eq matchP fetch cap h]
  · rw [enumCall_nofuse_eq matchP fetch cap h, enumServe_callCount,
      enumCapture_callCount]

theorem enumCall_hr (matchP : String → Bool)
    (fetch : Option (List FileInfo)) (cap : Nat) (s : EnumerationState) :
    (GetDirectoryEnumerationCallback matchP fetch false cap s).hr =
      .S_OK := by
  by_cases h : MAX_CALLS_PER_ENUM < s.callCount + 1
  · rw [enumCall_fuse_eq matchP fetch cap h]
  · rw [enumCall_nofuse_eq matchP fetch cap h]
    exact enumServe_hr _ _ _

theorem enumCall_cursor_monotone (matchP : String → Bool)
    (fetch : Option (List FileInfo)) (cap : Nat) (s : EnumerationState) :
    s.nextIndex ≤
      (GetDirectoryEnumerationCallback matchP fetch false cap
        s).state.nextIndex := by
  by_cases h : MAX_CALLS_PER_ENUM < s.callCount + 1
  · rw [enumCall_fuse_eq matchP fetch cap h]
  · rw [enumCall_nofuse_eq matchP fetch cap h]
    have h1 := enumCapture_nextIndex fetch
      { s with callCount := s.callCount + 1 }
    have h2 := enumServe_mono matchP cap
      (enumCapture fetch { s with callCount := s.callCount + 1 })
    rw [h1] at h2
    exact h2

theorem enumCall_inv (matchP : String → Bool)
    (fetch : Option (List FileInfo)) (cap : Nat) {s : EnumerationState}
    {acc : List FileInfo}
    (hfetch : ∀ l, fetch = some l → ∀ e ∈ l, e.name ≠ "")
    (hinv : EnumInv matchP s acc) :
    EnumInv matchP
      (GetDirectoryEnumerationCallback matchP fetch false cap s).state
      (acc ++
        (GetDirectoryEnumerationCallback matchP fetch false cap
          s).emitted) := by
  obtain ⟨h0, hnames, hacc⟩ := hinv
  by_cases hfuse : MAX_CALLS_PER_ENUM < s.callCount + 1
  · rw [enumCall_fuse_eq matchP fetch cap hfuse]
    exact ⟨h0, hnames, by simpa using hacc⟩
  · rw [enumCall_nofuse_eq matchP fetch cap hfuse]
    have hs2names : ∀ e ∈ (enumCapture fetch
        { s with callCount := s.callCount + 1 }).entries, e.name ≠ "" := by
      unfold enumCapture
      split
      · cases fetch with
        | none => exact hnames
        | some l => exact hfetch l rfl
      · exact hnames
    have hs2acc : acc = ((enumCapture fetch
        { s with callCount := s.callCount + 1 }).entries.take
          (enumCapture fetch
            { s with callCount := s.callCount + 1 }).nextIndex).filter
        (fun e => matchP e.name) := by
      unfold enumCapture
      split
      · rename_i hcap
        have hce : s.entries = [] := hcap.1
        have hcc : s.isComplete = false := hcap.2
        have hn0 : s.nextIndex = 0 := h0 hce hcc
        cases fetch with
        | none => rw [hacc, hce]
        | some l =>
          rw [hacc, hce]
          simp [hn0]
      · exact hacc
    refine ⟨enumServe_fresh matchP cap _, ?_, ?_⟩
    · rw [enumServe_entries]
      exact hs2names
    · rw [enumServe_entries]
      exact enumServe_acc matchP cap hs2names hs2acc

theorem runEnum_inv (matchP : String → Bool)
    (inputs : List (Option (List FileInfo) × Nat)) :
    ∀ (s : EnumerationState) (acc : List FileInfo),
      (∀ i ∈ inputs, ∀ l, i.1 = some l → ∀ e ∈ l, e.name ≠ "") →
      EnumInv matchP s acc →
      EnumInv matchP (runEnum matchP inputs s).1
        (acc ++ (runEnum matchP inputs s).2.flatten) := by
  induction inputs with
  | nil =>
    intro s acc _ hinv
    simpa [runEnum] using hinv
  | cons i rest ih =>
    intro s acc hf hinv
    obtain ⟨fetch, cap⟩ := i
    have hstep := enumCall_inv matchP fetch cap
      (fun l hl => hf (fetch, cap) (List.mem_cons_self _ _) l hl) hinv
    have hrest := ih
      (GetDirectoryEnumerationCallback matchP fetch false cap s).state
      (acc ++ (GetDirectoryEnumerationCallback matchP fetch false cap
        s).emitted)
      (fun j hj => hf j (List.mem_cons_of_mem _ hj)) hstep
    simpa [runEnum, List.append_assoc] using hrest

theorem runEnum_fused (matchP : String → Bool)
    (inputs : List (Option (List FileInfo) × Nat)) :
    ∀ s : EnumerationState, MAX_CALLS_PER_ENUM ≤ s.callCount →
      ∀ out ∈ (runEnum matchP inputs s).2, out = [] := by
  induction inputs with
  | nil =>
    intro s _ out hout
    simp [runEnum] at hout
  | cons i rest ih =>
    intro s hs out hout
    obtain ⟨fetch, cap⟩ := i
    have hfuse : MAX_CALLS_PER_ENUM < s.callCount + 1 :=
      Nat.lt_succ_of_le hs
    have heq := enumCall_fuse_eq matchP fetch cap hfuse
    simp only [runEnum, heq] at hout
    rcases List.mem_cons.mp hout with h | h
    · exact h
    · exact ih { s with callCount := s.callCount + 1 }
        (le_trans hs (Nat.le_succ s.callCount)) out h

/-- C1: a GetEnum call without the restart-scan flag never moves the session
cursor backwards, and for every restart-free run of calls from session start
(with sanitized, non-empty entry names in any fetched listing, per the
engine's listing-ingest contract) the concatenation of the emitted entries is
a prefix of the captured entry list filtered by the kernel-supplied search
pattern. -/
theorem enum_cursor_monotone_and_prefix (matchP : String → Bool)
    (fetch : Option (List FileInfo)) (cap : Nat) (s : EnumerationState)
    (inputs : List (Option (List FileInfo) × Nat))
    (hclean : ∀ i ∈ inputs, ∀ l, i.1 = some l → ∀ e ∈ l, e.name ≠ "") :
    s.nextIndex ≤
      (GetDirectoryEnumerationCallback matchP fetch false cap
        s).state.nextIndex ∧
    ∃ t, ((runEnum matchP inputs
        StartDirectoryEnumerationState).1.entries.filter
        (fun e => matchP e.name)) =
      (runEnum matchP inputs StartDirectoryEnumerationState).2.flatten ++
        t := by
  refine ⟨enumCall_cursor_monotone matchP fetch cap s, ?_⟩
  have hinv0 : EnumInv matchP StartDirectoryEnumerationState [] := by
    refine ⟨fun _ _ => rfl, ?_, rfl⟩
    intro e he
    simp [StartDirectoryEnumerationState] at he
  have h := runEnum_inv matchP inputs StartDirectoryEnumerationState []
    hclean hinv0
  obtain ⟨-, -, hacc⟩ := h
  simp only [List.nil_append] at hacc
  refine ⟨((runEnum matchP inputs
      StartDirectoryEnumerationState).1.entries.drop
      (runEnum matchP inputs
        StartDirectoryEnumerationState).1.nextIndex).filter
      (fun e => matchP e.name), ?_⟩
  rw [hacc, ← List.filter_append, List.take_append_drop]

/-- Witness for C1 at concrete inputs. -/
theorem enum_cursor_monotone_and_prefix_witness :
    StartDirectoryEnumerationState.nextIndex ≤
      (GetDirectoryEnumerationCallback (fun _ => true) (some [demoInfo])
        false 5 StartDirectoryEnumerationState).state.nextIndex ∧
    ∃ t, ((runEnum (fun _ => true) [(some [demoInfo], 5)]
        StartDirectoryEnumerationState).1.entries.filter
        (fun e => (fun _ => true) e.name)) =
      (runEnum (fun _ => true) [(some [demoInfo], 5)]
        StartDirectoryEnumerationState).2.flatten ++ t :=
  enum_cursor_monotone_and_prefix (fun _ => true) (some [demoInfo]) 5
    StartDirectoryEnumerationState [(some [demoInfo], 5)]
    (by
      intro i hi l hl e he
      rw [List.mem_singleton] at hi
      subst hi
      injection hl with hl2
      rw [← hl2] at he
      rw [List.mem_singleton] at he
      subst he
      decide)

/-- C5: every GetEnum call increments the session's call counter; a call
that finds the incremented counter above the fixed ceiling of 100 returns
success immediately with no entries and the state (cursor included) changed
only by the counter increment; GetEnum always returns success; and once the
fuse has fired every further call in the session without a restart-scan
emits no entries. -/
theorem enum_call_fuse (matchP : String → Bool)
    (fetch : Option (List FileInfo)) (cap : Nat) (s : EnumerationState)
    (inputs : List (Option (List FileInfo) × Nat)) :
    ((GetDirectoryEnumerationCallback matchP fetch false cap
        s).state.callCount = s.callCount + 1) ∧
    (MAX_CALLS_PER_ENUM ≤ s.callCount →
      GetDirectoryEnumerationCallback matchP fetch false cap s =
        { hr := .S_OK, emitted := []
          state := { s with callCount := s.callCount + 1 } }) ∧
    ((GetDirectoryEnumerationCallback matchP fetch false cap s).hr =
      .S_OK) ∧
    (MAX_CALLS_PER_ENUM ≤ s.callCount →
      ∀ out ∈ (runEnum matchP inputs s).2, out = []) := by
  refine ⟨enumCall_callCount matchP fetch cap s, ?_,
    enumCall_hr matchP fetch cap s, ?_⟩
  · intro h
    exact enumCall_fuse_eq matchP fetch cap (Nat.lt_succ_of_le h)
  · intro h
    exact runEnum_fused matchP inputs s h

/-- Witness for C5 at a concrete fused session. -/
theorem enum_call_fuse_witness :
    ((GetDirectoryEnumerationCallback (fun _ => true) (some [demoInfo])
        false 5 fusedState).state.callCount = fusedState.callCount + 1) ∧
    (GetDirectoryEnumerationCallback (fun _ => true) (some [demoInfo]) false
        5 fusedState =
      { hr := .S_OK, emitted := []
        state := { fusedState with
          callCount := fusedState.callCount + 1 } }) ∧
    ((GetDirectoryEnumerationCallback (fun _ => true) (some [demoInfo])
        false 5 fusedState).hr = .S_OK) ∧
    (∀ out ∈ (runEnum (fun _ => true) [(some [demoInfo], 5)]
        fusedState).2, out = []) :=
  have h := enum_call_fuse (fun _ => true) (some [demoInfo]) 5 fusedState
    [(some [demoInfo], 5)]
  ⟨h.1, h.2.1 (by decide), h.2.2.1, h.2.2.2 (by decide)⟩

/-- C9: a GetEnum call carrying the restart-scan flag behaves exactly like
the first call of a fresh session — the call counter is reset to 0 before
the increment (so it ends the call at 1) along with the cleared cursor,
entries and flags — hence the 100-call fuse bounds calls per scan, and a
restart-scan issued after the fuse has fired emits entries again. -/
theorem restart_scan_resets_fuse (matchP : String → Bool)
    (fetch : Option (List FileInfo)) (cap : Nat) (s : EnumerationState) :
    (GetDirectoryEnumerationCallback matchP fetch true cap s =
      GetDirectoryEnumerationCallback matchP fetch false cap
        StartDirectoryEnumerationState) ∧
    ((GetDirectoryEnumerationCallback matchP fetch true cap
        s).state.callCount = 1) ∧
    (∀ l : List FileInfo, l ≠ [] →
      (∀ e ∈ l, e.name ≠ "" ∧ matchP e.name = true) → l.length ≤ cap →
      (GetDirectoryEnumerationCallback matchP (some l) true cap
          s).emitted = l ∧
      (GetDirectoryEnumerationCallback matchP (some l) true cap
          s).state.nextIndex = l.length) := by
  refine ⟨rfl, enumCall_callCount matchP fetch cap
    StartDirectoryEnumerationState, ?_⟩
  intro l hl hall hcap
  have hne : ¬ (l.length ≤ 0) := by
    cases l with
    | nil => exact absurd rfl hl
    | cons a t => simp
  have hfill := fillLoop_all matchP l 0 cap hall hcap
  have heq : GetDirectoryEnumerationCallback matchP (some l) true cap s =
      enumServe matchP cap
        { entries := l, nextIndex := 0, isLoading := false
          isComplete := true, callCount := 1 } := by
    show GetDirectoryEnumerationCallback matchP (some l) false cap
        StartDirectoryEnumerationState = _
    rw [enumCall_nofuse_eq matchP (some l) cap (by decide)]
    congr 1
  rw [heq]
  unfold enumServe
  constructor <;> simp [hne, hfill]

/-- Witness for C9 at a concrete fused session. -/
theorem restart_scan_resets_fuse_witness :
    (GetDirectoryEnumerationCallback (fun _ => true) (some [demoInfo]) true
        5 fusedState =
      GetDirectoryEnumerationCallback (fun _ => true) (some [demoInfo])
        false 5 StartDirectoryEnumerationState) ∧
    ((GetDirectoryEnumerationCallback (fun _ => true) (some [demoInfo]) true
        5 fusedState).state.callCount = 1) ∧
    ((GetDirectoryEnumerationCallback (fun _ => true) (some [demoInfo]) true
        5 fusedState).emitted = [demoInfo] ∧
      (GetDirectoryEnumerationCallback (fun _ => true) (some [demoInfo])
        true 5 fusedState).state.nextIndex = [demoInfo].length) :=
  have h := restart_scan_resets_fuse (fun _ => true) (some [demoInfo]) 5
    fusedState
  ⟨h.1, h.2.1, h.2.2 [demoInfo] (by decide) (by decide) (by decide)⟩

end OneProjFS
